import Mathlib

/-! Message-queue trigger bootstrap: `cmd/fission-bundle/mqtrigger/mqtrigger.go`.

A shallow embedding of the three functions of the package, `Start`,
`newMessageQueue` and `readSecrets`.

The functions of the package talk to collaborators that live outside the file:
the operating system (`os.Getenv`, `os.Stat`, `ioutil.ReadDir`,
`ioutil.ReadFile`, `path.Join`), the control-plane client
(`crd.MakeFissionClient`, `WaitForCRDs`), the three backend constructors
(`nats.New`, `azurequeuestorage.New`, `kafka.New`), the trigger manager and the
`zap` logger.  Their answers are the fields of a `World`; every function of the
package is a function of the `World` that yields its Go result together with
the ordered list of `Event`s (calls and log lines) it caused.
-/

namespace Mqtrigger

/-! ## Go values -/

deriving instance DecidableEq for Except

/-- The contents of a file, Go's `[]byte`. -/
abbrev Bytes := List UInt8

/-- Go's `error` values that are not `nil`.  The `nil` error is `none` of
`Option GoError`.
* `external`: an error made by a collaborator (the `os` package, the control
  plane, a backend constructor); `notExist` is what `os.IsNotExist` answers
  for it and `text` is its message;
* `errorf`: the result of `errors.Errorf format args...`;
* `wrap`: the result of `errors.Wrap cause message`. -/
inductive GoError where
  | external (notExist : Bool) (text : String)
  | errorf (format : String) (args : List String)
  | wrap (cause : GoError) (message : String)
  deriving DecidableEq, Repr

/-- The function `errors.Cause` of `github.com/pkg/errors`: the innermost error
of a chain of `errors.Wrap`. -/
def GoError.Cause : GoError → GoError
  | .wrap cause _ => cause.Cause
  | e => e

/-- The verbs of `fmt.Sprintf` used in the package: `%s` writes a string
argument as it is, `%q` writes it as `strconv.Quote` renders it (`quote`). -/
def Sprintf (quote : String → String) : List Char → List String → List Char
  | '%' :: 's' :: rest, a :: args => a.data ++ Sprintf quote rest args
  | '%' :: 'q' :: rest, a :: args => (quote a).data ++ Sprintf quote rest args
  | c :: rest, args => c :: Sprintf quote rest args
  | [], _ => []

/-- The method `Error()` of an error: its message.  A wrapped error prints as
`message: cause`. -/
def GoError.Error (quote : String → String) : GoError → String
  | .external _ text => text
  | .errorf format args => String.mk (Sprintf quote format.data args)
  | .wrap cause message => message ++ ": " ++ cause.Error quote

/-- The function `os.IsNotExist`: false on the `nil` error, and on errors that
do not come from the `os` package. -/
def IsNotExist : Option GoError → Bool
  | some (.external notExist _) => notExist
  | _ => false

/-- The function `strings.HasPrefix`. -/
def HasPrefix (s pre : String) : Bool :=
  pre.data.isPrefixOf s.data

/-- The function `unicode.IsSpace`: the Latin-1 spaces and the characters of
the Unicode property `White_Space`. -/
def IsSpace (c : Char) : Bool :=
  c = '\t' || c = '\n' || c.val = 0x0B || c.val = 0x0C || c = '\r' || c = ' '
    || c.val = 0x85 || c.val = 0xA0 || c.val = 0x1680
    || (0x2000 ≤ c.val && c.val ≤ 0x200A)
    || c.val = 0x2028 || c.val = 0x2029 || c.val = 0x202F || c.val = 0x205F
    || c.val = 0x3000

/-- The function `strings.TrimSpace`: the string without its leading and
trailing white space. -/
def TrimSpace (s : String) : String :=
  String.mk ((s.data.dropWhile IsSpace).rdropWhile IsSpace)

/-- A key and its value in a `map[string][]byte`. -/
abbrev Entry := String × Bytes

/-- A `map[string][]byte` that is not `nil`: its entries, no key twice, in the
order in which the keys were first set. -/
abbrev SecretMap := List Entry

/-- The assignment `m[k] = v`: a key that is present gets the new value, a new
key is added. -/
def SecretMap.set (m : SecretMap) (k : String) (v : Bytes) : SecretMap :=
  if m.any (fun p => p.1 = k) then
    m.map (fun p => if p.1 = k then (k, v) else p)
  else
    m ++ [(k, v)]

/-- The lookup `m[k]`. -/
def SecretMap.get (m : SecretMap) (k : String) : Option Bytes :=
  (m.find? (fun p => p.1 = k)).map Prod.snd

/-- The keys of a map. -/
def SecretMap.keys (m : SecretMap) : List String :=
  m.map Prod.fst

/-- A value of type `map[string][]byte`; `none` is the `nil` map. -/
abbrev Secrets := Option SecretMap

/-- Go's `len(m)`: the `nil` map has no entries. -/
def Secrets.len : Secrets → Nat
  | none => 0
  | some m => m.length

/-- The fields `Name()` and `IsDir()` of an `os.FileInfo`. -/
structure FileInfo where
  name : String
  isDir : Bool
  deriving DecidableEq, Repr

/-- The record `messageQueue.Config`. -/
structure Config where
  MQType : String
  Url : String
  Secrets : Secrets
  deriving DecidableEq, Repr

/-- The handle `*crd.FissionClient`. -/
structure FissionClient where
  id : Nat
  deriving DecidableEq, Repr

/-- A backend, a value that is not `nil` of the interface
`messageQueue.MessageQueue`. -/
structure Backend where
  id : Nat
  deriving DecidableEq, Repr

/-- A value of the interface `messageQueue.MessageQueue`; `none` is `nil`. -/
abbrev MessageQueue := Option Backend

/-- The three packages that have a constructor `New`. -/
inductive Constructor where
  | nats
  | azurequeuestorage
  | kafka
  deriving DecidableEq, Repr

/-! ## Collaborators and traces -/

/-- What a run does to the outside, in order: the calls into a collaborator,
the log lines, and the entry into `readSecrets` and `newMessageQueue`. -/
inductive Event where
  | MakeFissionClient
  | WaitForCRDs (client : FissionClient)
  | readSecrets (secretsPath : String)
  | Stat (name : String)
  | ReadDir (dirname : String)
  | ReadFile (filename : String)
  | Info (msg : String)
  | Fatal (msg : String) (err : GoError)
  | newMessageQueue (routerURL : String) (mqCfg : Config)
  | New (pkg : Constructor) (routerURL : String) (mqCfg : Config)
  | MakeMessageQueueTriggerManager (client : FissionClient) (mq : MessageQueue)
  | Run
  deriving DecidableEq, Repr

/-- The answers of the collaborators during one run of the process.  The file
system and the environment do not change during the run.
* `MessageQueueTypeNats`, `MessageQueueTypeASQ`, `MessageQueueTypeKafka`: the
  constants of package `fv1`;
* `Quote`: `strconv.Quote`, which `%q` applies to a string;
* `RunReturns`: whether the method `Run` of the trigger manager returns. -/
structure World where
  MessageQueueTypeNats : String
  MessageQueueTypeASQ : String
  MessageQueueTypeKafka : String
  MakeFissionClient : FissionClient × Option GoError
  WaitForCRDs : FissionClient → Option GoError
  Getenv : String → String
  Stat : String → Option GoError
  ReadDir : String → Except GoError (List FileInfo)
  ReadFile : String → Except GoError Bytes
  Join : String → String → String
  Quote : String → String
  New : Constructor → String → Config → MessageQueue × Option GoError
  RunReturns : Bool

/-- The constants of a `switch` are pairwise different (the Go compiler rejects
a `switch` with the same constant in two cases). -/
def World.kindsDistinct (w : World) : Prop :=
  w.MessageQueueTypeNats ≠ w.MessageQueueTypeASQ ∧
  w.MessageQueueTypeNats ≠ w.MessageQueueTypeKafka ∧
  w.MessageQueueTypeASQ ≠ w.MessageQueueTypeKafka

instance (w : World) : Decidable w.kindsDistinct := by
  unfold World.kindsDistinct
  infer_instance

/-- The result of a call together with what the call did. -/
structure Ran (α : Type) where
  result : α
  trace : List Event

/-- How a run of `Start` ends: it returns an error value (`none` is `nil`), or
the process ends with an exit status (`logger.Fatal` writes the entry and calls
`os.Exit(1)`), or it stays in the method `Run` of the trigger manager. -/
inductive Outcome where
  | returned (err : Option GoError)
  | exited (status : Nat)
  | blocked
  deriving DecidableEq, Repr

/-! ## The package -/

/-- The entries that `readSecrets` reads: `!secretFile.IsDir() &&
!strings.HasPrefix(fileName, ".")`. -/
def isSecretFile (secretFile : FileInfo) : Bool :=
  !secretFile.isDir && !HasPrefix secretFile.name "."

/-- The loop `for _, secretFile := range secretFiles` of `readSecrets`, from
the value `secrets` that the map has on entry. -/
def readSecretsLoop (w : World) (secretsPath : String) :
    List FileInfo → SecretMap → Ran (Secrets × Option GoError)
  | [], secrets => ⟨(some secrets, none), []⟩
  | secretFile :: rest, secrets =>
    let fileName := secretFile.name
    if !secretFile.isDir && !HasPrefix fileName "." then
      let info := Event.Info (String.mk (Sprintf w.Quote "Reading secret from %s".data [fileName]))
      let filePath := w.Join secretsPath fileName
      match w.ReadFile filePath with
      | .error fileReadErr => ⟨(none, some fileReadErr), [info, .ReadFile filePath]⟩
      | .ok secret =>
        let r := readSecretsLoop w secretsPath rest (secrets.set fileName secret)
        ⟨r.result, info :: .ReadFile filePath :: r.trace⟩
    else
      readSecretsLoop w secretsPath rest secrets

/-- The function `readSecrets`. -/
def readSecrets (w : World) (secretsPath : String) : Ran (Secrets × Option GoError) :=
  let err := w.Stat secretsPath
  if IsNotExist err then
    ⟨(none, err), [.readSecrets secretsPath, .Stat secretsPath]⟩
  else
    match w.ReadDir secretsPath with
    | .error err =>
      ⟨(none, some err), [.readSecrets secretsPath, .Stat secretsPath, .ReadDir secretsPath]⟩
    | .ok secretFiles =>
      let r := readSecretsLoop w secretsPath secretFiles []
      ⟨r.result, .readSecrets secretsPath :: .Stat secretsPath :: .ReadDir secretsPath :: r.trace⟩

/-- The function `newMessageQueue`. -/
def newMessageQueue (w : World) (routerURL : String) (mqCfg : Config) :
    Ran (MessageQueue × Option GoError) :=
  if mqCfg.MQType = w.MessageQueueTypeNats then
    ⟨w.New .nats routerURL mqCfg,
      [.newMessageQueue routerURL mqCfg, .New .nats routerURL mqCfg]⟩
  else if mqCfg.MQType = w.MessageQueueTypeASQ then
    ⟨w.New .azurequeuestorage routerURL mqCfg,
      [.newMessageQueue routerURL mqCfg, .New .azurequeuestorage routerURL mqCfg]⟩
  else if mqCfg.MQType = w.MessageQueueTypeKafka then
    ⟨w.New .kafka routerURL mqCfg,
      [.newMessageQueue routerURL mqCfg, .New .kafka routerURL mqCfg]⟩
  else
    ⟨(none, some (.errorf "no supported message queue type found for %q" [mqCfg.MQType])),
      [.newMessageQueue routerURL mqCfg]⟩

/-- The function `Start`.  After the block `if len(secretsPath) > 0`, `secrets`
and `err` hold the result of `readSecrets` when the block was entered, and
`nil`, `nil` when it was not (`err` is `nil` after the check of `WaitForCRDs`);
the block returns exactly when it leaves `err` different from `nil`.  The
logger is that of `zap`: `logger.Fatal` writes the entry and then calls
`os.Exit(1)`. -/
def Start (w : World) (routerUrl : String) : Ran Outcome :=
  match w.MakeFissionClient with
  | (_, some err) =>
    ⟨.returned (some (.wrap err "failed to get fission or kubernetes client")),
      [.MakeFissionClient]⟩
  | (fissionClient, none) =>
    match w.WaitForCRDs fissionClient with
    | some err =>
      ⟨.returned (some (.wrap err "error waiting for CRDs")),
        [.MakeFissionClient, .WaitForCRDs fissionClient]⟩
    | none =>
      let mqType := w.Getenv "MESSAGE_QUEUE_TYPE"
      let mqUrl := w.Getenv "MESSAGE_QUEUE_URL"
      let secretsPath := TrimSpace (w.Getenv "MESSAGE_QUEUE_SECRETS")
      let loaded : Ran (Secrets × Option GoError) :=
        if secretsPath.length > 0 then readSecrets w secretsPath else ⟨(none, none), []⟩
      let before := Event.MakeFissionClient :: .WaitForCRDs fissionClient :: loaded.trace
      match loaded.result with
      | (_, some err) => ⟨.returned (some err), before⟩
      | (secrets, none) =>
        let made := newMessageQueue w routerUrl
          { MQType := mqType, Url := mqUrl, Secrets := secrets }
        match made.result with
        | (_, some err) =>
          ⟨.exited 1, before ++ made.trace ++
            [.Fatal "failed to connect to remote message queue server" err]⟩
        | (mq, none) =>
          ⟨if w.RunReturns then .returned none else .blocked,
            before ++ made.trace ++ [.MakeMessageQueueTriggerManager fissionClient mq, .Run]⟩

/-! ## Reading traces -/

/-- The map of the secret files of a listing, given the contents of each. -/
def secretsOf (content : String → Bytes) (secretFiles : List FileInfo) : SecretMap :=
  (secretFiles.filter isSecretFile).map (fun f => (f.name, content f.name))

/-- The entry into `readSecrets`. -/
def Event.isReadSecrets : Event → Bool
  | .readSecrets _ => true
  | _ => false

/-- The entry into `newMessageQueue`. -/
def Event.isNewMessageQueue : Event → Bool
  | .newMessageQueue _ _ => true
  | _ => false

/-- A call of the constructor of a backend. -/
def Event.isNew : Event → Bool
  | .New _ _ _ => true
  | _ => false

/-- An access to the file system: `os.Stat`, `ioutil.ReadDir`, `ioutil.ReadFile`. -/
def Event.isFileAccess : Event → Bool
  | .Stat _ => true
  | .ReadDir _ => true
  | .ReadFile _ => true
  | _ => false

/-- The construction of the trigger manager, and its method `Run`. -/
def Event.isManager : Event → Bool
  | .MakeMessageQueueTriggerManager _ _ => true
  | .Run => true
  | _ => false

/-- The values of `secrets` and `err` in `Start` after the block
`if len(secretsPath) > 0`, with what the block did. -/
def afterSecretsBlock (w : World) : Ran (Secrets × Option GoError) :=
  if (TrimSpace (w.Getenv "MESSAGE_QUEUE_SECRETS")).length > 0 then
    readSecrets w (TrimSpace (w.Getenv "MESSAGE_QUEUE_SECRETS"))
  else ⟨(none, none), []⟩

/-- The value `messageQueue.Config{MQType: mqType, Url: mqUrl, Secrets: secrets}`
that `Start` passes to `newMessageQueue`. -/
def startConfig (w : World) (secrets : Secrets) : Config :=
  { MQType := w.Getenv "MESSAGE_QUEUE_TYPE", Url := w.Getenv "MESSAGE_QUEUE_URL",
    Secrets := secrets }

/-! ## A concrete world

The secrets directory of the end-to-end example: `/etc/secrets` holds the files
`user` and `pass` and the hidden directory `.staging`; `/etc/broken` holds a
file that cannot be read after one that can. -/

/-- The bytes of a text. -/
def bytes (s : String) : Bytes :=
  s.data.map (fun c => c.toNat.toUInt8)

/-- The error of the `os` package for a path that is not there. -/
def noSuchFile (op path : String) : GoError :=
  .external true (op ++ " " ++ path ++ ": no such file or directory")

/-- The error of the `os` package for a path that may not be opened. -/
def permissionDenied (op path : String) : GoError :=
  .external false (op ++ " " ++ path ++ ": permission denied")

/-- A world in which the control plane is ready, the environment selects the
kafka backend and the secrets directory ` /etc/secrets`, and the constructor of
kafka succeeds.  `Join` and `Quote` are `path.Join` and `strconv.Quote` on the
arguments they get here: a clean directory path and a name without a slash, a
text without a character to escape. -/
def demoWorld : World where
  MessageQueueTypeNats := "nats-streaming"
  MessageQueueTypeASQ := "azure-storage-queue"
  MessageQueueTypeKafka := "kafka"
  MakeFissionClient := (⟨1⟩, none)
  WaitForCRDs := fun _ => none
  Getenv := fun name =>
    if name = "MESSAGE_QUEUE_TYPE" then "kafka"
    else if name = "MESSAGE_QUEUE_URL" then "broker:9092"
    else if name = "MESSAGE_QUEUE_SECRETS" then " /etc/secrets\n"
    else ""
  Stat := fun name =>
    if name = "/etc/secrets" ∨ name = "/etc/broken" then none
    else some (noSuchFile "stat" name)
  ReadDir := fun dirname =>
    if dirname = "/etc/secrets" then
      .ok [⟨".staging", true⟩, ⟨"pass", false⟩, ⟨"user", false⟩]
    else if dirname = "/etc/broken" then
      .ok [⟨".hidden", false⟩, ⟨"cert", false⟩, ⟨"key", false⟩, ⟨"token", false⟩]
    else .error (noSuchFile "open" dirname)
  ReadFile := fun filename =>
    if filename = "/etc/secrets/user" then .ok (bytes "alice")
    else if filename = "/etc/secrets/pass" then .ok (bytes "secret")
    else if filename = "/etc/broken/cert" then .ok (bytes "PEM")
    else if filename = "/etc/broken/token" then .ok (bytes "t0k3n")
    else if filename = "/etc/broken/key" ∨ filename = "/etc/broken/.hidden" then
      .error (permissionDenied "open" filename)
    else if filename = "/etc/secrets/.staging" then
      .error (.external false "read /etc/secrets/.staging: is a directory")
    else .error (noSuchFile "open" filename)
  Join := fun dir name => dir ++ "/" ++ name
  Quote := fun s => "\"" ++ s ++ "\""
  New := fun pkg _ _ =>
    match pkg with
    | .kafka => (some ⟨7⟩, none)
    | .nats => (none, some (.external false "nats: no servers available for connection"))
    | .azurequeuestorage => (none, some (.external false "failed to create Azure queue client"))
  RunReturns := false

/-- The world `demoWorld` with another kind and another setting of the secrets
path in the environment. -/
def demoWorldWith (mqType secretsSetting : String) : World :=
  { demoWorld with
    Getenv := fun name =>
      if name = "MESSAGE_QUEUE_TYPE" then mqType
      else if name = "MESSAGE_QUEUE_URL" then "broker:9092"
      else if name = "MESSAGE_QUEUE_SECRETS" then secretsSetting
      else "" }

/-- The world `demoWorld` without access to the cluster: no client. -/
def noClusterWorld : World :=
  { demoWorld with
    MakeFissionClient := (⟨0⟩, some (.external false "unable to load in-cluster configuration")) }

/-- The world `demoWorld` with a control plane that does not get ready. -/
def noCRDsWorld : World :=
  { demoWorld with
    WaitForCRDs := fun _ => some (.external false "timeout waiting for CRDs") }

/-- The contents of the files of `/etc/secrets` by name. -/
def demoContent (name : String) : Bytes :=
  if name = "user" then bytes "alice" else bytes "secret"

/-! ## Lemmas on maps -/

theorem SecretMap.set_of_not_mem (m : SecretMap) (k : String) (v : Bytes)
    (h : k ∉ m.keys) : m.set k v = m ++ [(k, v)] := by
  unfold SecretMap.set
  have : m.any (fun p => decide (p.1 = k)) = false := by
    rw [List.any_eq_false]
    intro p hp
    simp only [decide_eq_true_eq]
    intro hk
    exact h (hk ▸ List.mem_map_of_mem Prod.fst hp)
  simp [this]

theorem SecretMap.keys_set_subset (m : SecretMap) (k : String) (v : Bytes) :
    ∀ x ∈ (m.set k v).keys, x = k ∨ x ∈ m.keys := by
  intro x hx
  unfold SecretMap.set at hx
  split at hx
  · simp only [SecretMap.keys, List.mem_map] at hx ⊢
    obtain ⟨p, ⟨q, hq, rfl⟩, rfl⟩ := hx
    by_cases hqk : q.1 = k
    · left; simp [hqk]
    · right; exact ⟨q, hq, by simp [hqk]⟩
  · simp only [SecretMap.keys, List.map_append, List.mem_append, List.map_cons, List.map_nil,
      List.mem_singleton] at hx ⊢
    rcases hx with hx | hx
    · right; exact hx
    · left; exact hx

/-! ## Lemmas on the loop of `readSecrets` -/

/-- Every file that the loop reads is a secret file of the listing. -/
theorem readSecretsLoop_reads (w : World) (secretsPath : String) :
    ∀ (secretFiles : List FileInfo) (secrets : SecretMap) (filename : String),
      Event.ReadFile filename ∈ (readSecretsLoop w secretsPath secretFiles secrets).trace →
      ∃ f ∈ secretFiles, isSecretFile f = true ∧ filename = w.Join secretsPath f.name := by
  intro secretFiles
  induction secretFiles with
  | nil => intro secrets filename h; simp [readSecretsLoop] at h
  | cons f rest ih =>
    intro secrets filename h
    unfold readSecretsLoop at h
    by_cases hf : (!f.isDir && !HasPrefix f.name ".") = true
    · simp only [hf, if_true] at h
      split at h
      · simp only [List.mem_cons, List.mem_singleton, reduceCtorEq, false_or,
          Event.ReadFile.injEq, List.not_mem_nil, or_false] at h
        exact ⟨f, List.mem_cons_self _ _, hf, h⟩
      · simp only [List.mem_cons, reduceCtorEq, false_or, Event.ReadFile.injEq] at h
        rcases h with h | h
        · exact ⟨f, List.mem_cons_self _ _, hf, h⟩
        · obtain ⟨g, hg, hs, he⟩ := ih _ _ h
          exact ⟨g, List.mem_cons_of_mem _ hg, hs, he⟩
    · simp only [hf] at h
      obtain ⟨g, hg, hs, he⟩ := ih _ _ h
      exact ⟨g, List.mem_cons_of_mem _ hg, hs, he⟩

/-- The loop never returns a map together with an error, and its error is the
error of reading a secret file of the listing. -/
theorem readSecretsLoop_error (w : World) (secretsPath : String) :
    ∀ (secretFiles : List FileInfo) (secrets : SecretMap) (err : GoError),
      (readSecretsLoop w secretsPath secretFiles secrets).result.2 = some err →
      (readSecretsLoop w secretsPath secretFiles secrets).result.1 = none ∧
      ∃ f ∈ secretFiles, isSecretFile f = true ∧
        w.ReadFile (w.Join secretsPath f.name) = .error err := by
  intro secretFiles
  induction secretFiles with
  | nil => intro secrets err h; simp [readSecretsLoop] at h
  | cons f rest ih =>
    intro secrets err h
    unfold readSecretsLoop at h ⊢
    by_cases hf : (!f.isDir && !HasPrefix f.name ".") = true
    · simp only [hf, if_true] at h ⊢
      split at h
      · rename_i e he
        simp only [Option.some.injEq] at h
        subst h
        simp only [he, true_and]
        exact ⟨f, List.mem_cons_self _ _, hf, he⟩
      · rename_i b hb
        simp only [hb]
        obtain ⟨h1, g, hg, hs, he⟩ := ih _ _ h
        exact ⟨h1, g, List.mem_cons_of_mem _ hg, hs, he⟩
    · simp only [hf] at h ⊢
      obtain ⟨h1, g, hg, hs, he⟩ := ih _ _ h
      exact ⟨h1, g, List.mem_cons_of_mem _ hg, hs, he⟩

/-- Every key of the map that the loop returns was in the map on entry or is
the name of a secret file of the listing. -/
theorem readSecretsLoop_keys (w : World) (secretsPath : String) :
    ∀ (secretFiles : List FileInfo) (secrets m : SecretMap),
      (readSecretsLoop w secretsPath secretFiles secrets).result.1 = some m →
      ∀ k ∈ m.keys, k ∈ secrets.keys ∨
        ∃ f ∈ secretFiles, isSecretFile f = true ∧ f.name = k := by
  intro secretFiles
  induction secretFiles with
  | nil =>
    intro secrets m h k hk
    simp only [readSecretsLoop, Option.some.injEq] at h
    subst h
    exact Or.inl hk
  | cons f rest ih =>
    intro secrets m h k hk
    unfold readSecretsLoop at h
    by_cases hf : (!f.isDir && !HasPrefix f.name ".") = true
    · simp only [hf, if_true] at h
      split at h
      · simp at h
      · rcases ih _ _ h k hk with h1 | ⟨g, hg, hs, he⟩
        · rcases SecretMap.keys_set_subset _ _ _ _ h1 with h2 | h2
          · exact Or.inr ⟨f, List.mem_cons_self _ _, hf, h2.symm⟩
          · exact Or.inl h2
        · exact Or.inr ⟨g, List.mem_cons_of_mem _ hg, hs, he⟩
    · simp only [hf] at h
      rcases ih _ _ h k hk with h1 | ⟨g, hg, hs, he⟩
      · exact Or.inl h1
      · exact Or.inr ⟨g, List.mem_cons_of_mem _ hg, hs, he⟩

/-- When every secret file of the listing can be read and no name is new twice,
the loop adds one entry for each secret file, in order, and nothing else. -/
theorem readSecretsLoop_ok (w : World) (secretsPath : String) (content : String → Bytes) :
    ∀ (secretFiles : List FileInfo) (secrets : SecretMap),
      (secrets.keys ++ (secretFiles.filter isSecretFile).map FileInfo.name).Nodup →
      (∀ f ∈ secretFiles, isSecretFile f = true →
        w.ReadFile (w.Join secretsPath f.name) = .ok (content f.name)) →
      (readSecretsLoop w secretsPath secretFiles secrets).result
        = (some (secrets ++ secretsOf content secretFiles), none) := by
  intro secretFiles
  induction secretFiles with
  | nil => intro secrets _ _; simp [readSecretsLoop, secretsOf]
  | cons f rest ih =>
    intro secrets hnd hread
    unfold readSecretsLoop
    by_cases hf : (!f.isDir && !HasPrefix f.name ".") = true
    · have hs : isSecretFile f = true := hf
      have hr := hread f (List.mem_cons_self _ _) hs
      simp only [hf, if_true, hr]
      have hfil : (f :: rest).filter isSecretFile = f :: rest.filter isSecretFile := by
        simp [List.filter_cons, hs]
      rw [hfil, List.map_cons] at hnd
      have hnew : f.name ∉ secrets.keys := by
        intro hmem
        have := List.nodup_append.mp hnd
        exact this.2.2 hmem (List.mem_cons_self _ _)
      rw [SecretMap.set_of_not_mem _ _ _ hnew]
      have hnd2 : ((secrets ++ [(f.name, content f.name)]).keys
          ++ (rest.filter isSecretFile).map FileInfo.name).Nodup := by
        simpa [SecretMap.keys, List.append_assoc] using hnd
      rw [ih _ hnd2 (fun g hg => hread g (List.mem_cons_of_mem _ hg))]
      simp [secretsOf, hfil, List.append_assoc]
    · have hs : isSecretFile f = false := by simpa [isSecretFile] using hf
      have hfil : (f :: rest).filter isSecretFile = rest.filter isSecretFile := by
        simp [List.filter_cons, hs]
      simp only [hf, Bool.false_eq_true, if_false]
      rw [hfil] at hnd
      rw [ih _ hnd (fun g hg => hread g (List.mem_cons_of_mem _ hg))]
      simp [secretsOf, hfil]

/-- The first secret file that cannot be read ends the loop: the loop returns
the `nil` map and the error of that file. -/
theorem readSecretsLoop_fails (w : World) (secretsPath : String) (bad : FileInfo)
    (later : List FileInfo) (err : GoError) (hbad : isSecretFile bad = true)
    (herr : w.ReadFile (w.Join secretsPath bad.name) = .error err) :
    ∀ (earlier : List FileInfo) (secrets : SecretMap),
      (∀ f ∈ earlier, isSecretFile f = true →
        ∃ b, w.ReadFile (w.Join secretsPath f.name) = .ok b) →
      (readSecretsLoop w secretsPath (earlier ++ bad :: later) secrets).result
        = (none, some err) := by
  intro earlier
  induction earlier with
  | nil =>
    intro secrets _
    have hf : (!bad.isDir && !HasPrefix bad.name ".") = true := hbad
    simp [readSecretsLoop, hf, herr]
  | cons f rest ih =>
    intro secrets hread
    rw [List.cons_append]
    unfold readSecretsLoop
    by_cases hf : (!f.isDir && !HasPrefix f.name ".") = true
    · obtain ⟨b, hb⟩ := hread f (List.mem_cons_self _ _) hf
      simp only [hf, if_true, hb]
      exact ih _ (fun g hg => hread g (List.mem_cons_of_mem _ hg))
    · simp only [hf]
      exact ih _ (fun g hg => hread g (List.mem_cons_of_mem _ hg))

/-- In a listing with a secret file that cannot be read there is a first one:
every secret file before it can be read. -/
theorem exists_first_unreadable (w : World) (secretsPath : String) :
    ∀ secretFiles : List FileInfo,
      (∃ f ∈ secretFiles, isSecretFile f = true ∧
        ∃ e, w.ReadFile (w.Join secretsPath f.name) = .error e) →
      ∃ earlier bad later err, secretFiles = earlier ++ bad :: later ∧
        (∀ f ∈ earlier, isSecretFile f = true →
          ∃ b, w.ReadFile (w.Join secretsPath f.name) = .ok b) ∧
        isSecretFile bad = true ∧
        w.ReadFile (w.Join secretsPath bad.name) = .error err := by
  intro secretFiles
  induction secretFiles with
  | nil => rintro ⟨f, hf, _⟩; simp at hf
  | cons g rest ih =>
    rintro ⟨f, hf, hs, e, he⟩
    by_cases hg : isSecretFile g = true ∧ ∃ e, w.ReadFile (w.Join secretsPath g.name) = .error e
    · obtain ⟨hgs, e1, he1⟩ := hg
      exact ⟨[], g, rest, e1, rfl, by simp, hgs, he1⟩
    · have hfrest : f ∈ rest := by
        rcases List.mem_cons.mp hf with h | h
        · exact absurd ⟨h ▸ hs, e, h ▸ he⟩ hg
        · exact h
      obtain ⟨earlier, bad, later, err, hsplit, hearlier, hbad, herr⟩ :=
        ih ⟨f, hfrest, hs, e, he⟩
      refine ⟨g :: earlier, bad, later, err, by simp [hsplit], ?_, hbad, herr⟩
      intro x hx hxs
      rcases List.mem_cons.mp hx with h | h
      · subst h
        cases hr : w.ReadFile (w.Join secretsPath x.name) with
        | ok b => exact ⟨b, rfl⟩
        | error e2 => exact absurd ⟨hxs, e2, hr⟩ hg
      · exact hearlier x h hxs

/-! ## The secrets loader -/

/-- C1: for an existing directory whose listing holds N secret files (entries
that are no directory and whose name does not start with a dot), all readable,
and M other entries, `readSecrets` returns the `nil` error and the map with
exactly N entries that sends the name of each secret file to the contents of
the file; any other existing directory with the same secret files gives the
same result, whatever its other entries are. -/
theorem readSecrets_loads_every_secret_file (w : World) (secretsPath : String)
    (secretFiles : List FileInfo) (content : String → Bytes)
    (hexists : IsNotExist (w.Stat secretsPath) = false)
    (hlist : w.ReadDir secretsPath = .ok secretFiles)
    (hnames : (secretFiles.map FileInfo.name).Nodup)
    (hread : ∀ f ∈ secretFiles, isSecretFile f = true →
      w.ReadFile (w.Join secretsPath f.name) = .ok (content f.name)) :
    ∃ m : SecretMap,
      (readSecrets w secretsPath).result = (some m, none) ∧
      m.length = (secretFiles.filter isSecretFile).length ∧
      m.keys.Nodup ∧
      (∀ k, k ∈ m.keys ↔ ∃ f ∈ secretFiles, isSecretFile f = true ∧ f.name = k) ∧
      (∀ f ∈ secretFiles, isSecretFile f = true → m.get f.name = some (content f.name)) ∧
      (∀ (otherPath : String) (otherFiles : List FileInfo),
        IsNotExist (w.Stat otherPath) = false →
        w.ReadDir otherPath = .ok otherFiles →
        otherFiles.filter isSecretFile = secretFiles.filter isSecretFile →
        (∀ f ∈ otherFiles, isSecretFile f = true →
          w.ReadFile (w.Join otherPath f.name) = .ok (content f.name)) →
        (readSecrets w otherPath).result = (some m, none)) := by
  have hsub : ((secretFiles.filter isSecretFile).map FileInfo.name).Nodup :=
    List.Nodup.sublist (List.Sublist.map _ (List.filter_sublist _)) hnames
  have hkeys : (secretsOf content secretFiles).keys
      = (secretFiles.filter isSecretFile).map FileInfo.name := by
    simp [secretsOf, SecretMap.keys, Function.comp_def]
  refine ⟨secretsOf content secretFiles, ?_, ?_, ?_, ?_, ?_, ?_⟩
  · have h := readSecretsLoop_ok w secretsPath content secretFiles []
      (by simpa [SecretMap.keys] using hsub) hread
    simp only [readSecrets, hexists, hlist]
    simpa using h
  · simp [secretsOf]
  · rw [hkeys]; exact hsub
  · intro k
    rw [hkeys]
    simp only [List.mem_map, List.mem_filter]
    constructor
    · rintro ⟨f, ⟨hf, hs⟩, rfl⟩; exact ⟨f, hf, hs, rfl⟩
    · rintro ⟨f, hf, hs, rfl⟩; exact ⟨f, ⟨hf, hs⟩, rfl⟩
  · intro f hf hs
    have hinj : ∀ g ∈ secretFiles, g.name = f.name → g = f := by
      intro g hg hgf
      exact List.inj_on_of_nodup_map hnames hg hf hgf
    have hfind : ∀ l : List FileInfo, (∀ g ∈ l, g.name = f.name → g = f) → f ∈ l →
        isSecretFile f = true →
        (secretsOf content l).get f.name = some (content f.name) := by
      intro l
      induction l with
      | nil => intro _ hmem; simp at hmem
      | cons g rest ih =>
        intro hl hmem hfs
        by_cases hg : isSecretFile g = true
        · by_cases hgf : g.name = f.name
          · simp [secretsOf, SecretMap.get, List.filter_cons, hg, hgf]
          · have hne : g ≠ f := fun h => hgf (h ▸ rfl)
            have hmem2 : f ∈ rest := by
              rcases List.mem_cons.mp hmem with h | h
              · exact absurd h.symm hne
              · exact h
            have := ih (fun x hx => hl x (List.mem_cons_of_mem _ hx)) hmem2 hfs
            simpa [secretsOf, SecretMap.get, List.filter_cons, hg, hgf] using this
        · have hg2 : isSecretFile g = false := by simpa using hg
          have hne : g ≠ f := fun h => by rw [h, hfs] at hg2; exact Bool.noConfusion hg2
          have hmem2 : f ∈ rest := by
            rcases List.mem_cons.mp hmem with h | h
            · exact absurd h.symm hne
            · exact h
          have := ih (fun x hx => hl x (List.mem_cons_of_mem _ hx)) hmem2 hfs
          simpa [secretsOf, SecretMap.get, List.filter_cons, hg2] using this
    exact hfind secretFiles hinj hf hs
  · intro otherPath otherFiles hex2 hlist2 hsame hread2
    have hsub2 : ((otherFiles.filter isSecretFile).map FileInfo.name).Nodup := by
      rw [hsame]; exact hsub
    have h := readSecretsLoop_ok w otherPath content otherFiles []
      (by simpa [SecretMap.keys] using hsub2) hread2
    simp only [readSecrets, hex2, hlist2]
    have hso : secretsOf content otherFiles = secretsOf content secretFiles := by
      simp [secretsOf, hsame]
    rw [← hso]
    simpa using h

/-- C2: in an existing directory whose listing holds a secret file that cannot
be read, `readSecrets` returns the `nil` map and the very error of the first
such file of the listing, however many secret files were read before it. -/
theorem readSecrets_first_unreadable_aborts (w : World) (secretsPath : String)
    (secretFiles : List FileInfo)
    (hexists : IsNotExist (w.Stat secretsPath) = false)
    (hlist : w.ReadDir secretsPath = .ok secretFiles)
    (hbad : ∃ f ∈ secretFiles, isSecretFile f = true ∧
      ∃ e, w.ReadFile (w.Join secretsPath f.name) = .error e) :
    ∃ earlier bad later err, secretFiles = earlier ++ bad :: later ∧
      (∀ f ∈ earlier, isSecretFile f = true →
        ∃ b, w.ReadFile (w.Join secretsPath f.name) = .ok b) ∧
      isSecretFile bad = true ∧
      w.ReadFile (w.Join secretsPath bad.name) = .error err ∧
      (readSecrets w secretsPath).result = (none, some err) := by
  obtain ⟨earlier, bad, later, err, hsplit, hearlier, hbads, herr⟩ :=
    exists_first_unreadable w secretsPath secretFiles hbad
  refine ⟨earlier, bad, later, err, hsplit, hearlier, hbads, herr, ?_⟩
  have h := readSecretsLoop_fails w secretsPath bad later err hbads herr earlier [] hearlier
  simp only [readSecrets, hexists, hlist, hsplit]
  simpa using h

/-- C3: for a path that does not exist, `readSecrets` returns the `nil` map and
the error of `os.Stat`, and it does nothing but that one call of `os.Stat`: it
lists no directory and reads no file. -/
theorem readSecrets_missing_path (w : World) (secretsPath : String)
    (hmissing : IsNotExist (w.Stat secretsPath) = true) :
    ∃ err, w.Stat secretsPath = some err ∧
      (readSecrets w secretsPath).result = (none, some err) ∧
      (readSecrets w secretsPath).trace = [.readSecrets secretsPath, .Stat secretsPath] ∧
      (∀ dirname, Event.ReadDir dirname ∉ (readSecrets w secretsPath).trace) ∧
      (∀ filename, Event.ReadFile filename ∉ (readSecrets w secretsPath).trace) := by
  cases hs : w.Stat secretsPath with
  | none => rw [hs] at hmissing; simp [IsNotExist] at hmissing
  | some err =>
    rw [hs] at hmissing
    refine ⟨err, rfl, ?_, ?_, ?_, ?_⟩ <;> simp [readSecrets, hs, hmissing]

/-- C10: in an existing directory that can be listed (the names of its entries
are pairwise different), `readSecrets` reads only entries that are no directory
and whose name does not start with a dot; it fails only with the error of
reading such an entry; every key of a map it returns is the name of such an
entry, does not start with a dot and is not the name of a directory; and, as
`path.Join` gives different paths to different names of one directory, the path
of a directory or of an entry with a dot in front is never read. -/
theorem readSecrets_ignores_directories_and_hidden (w : World) (secretsPath : String)
    (secretFiles : List FileInfo)
    (hexists : IsNotExist (w.Stat secretsPath) = false)
    (hlist : w.ReadDir secretsPath = .ok secretFiles)
    (hnames : (secretFiles.map FileInfo.name).Nodup) :
    (∀ filename, Event.ReadFile filename ∈ (readSecrets w secretsPath).trace →
      ∃ f ∈ secretFiles, f.isDir = false ∧ HasPrefix f.name "." = false ∧
        filename = w.Join secretsPath f.name) ∧
    (∀ err, (readSecrets w secretsPath).result.2 = some err →
      ∃ f ∈ secretFiles, f.isDir = false ∧ HasPrefix f.name "." = false ∧
        w.ReadFile (w.Join secretsPath f.name) = .error err) ∧
    (∀ m, (readSecrets w secretsPath).result.1 = some m → ∀ k ∈ m.keys,
      HasPrefix k "." = false ∧
      (∃ f ∈ secretFiles, f.name = k ∧ f.isDir = false) ∧
      (∀ f ∈ secretFiles, f.isDir = true → f.name ≠ k)) ∧
    ((∀ a b, w.Join secretsPath a = w.Join secretsPath b → a = b) →
      ∀ f ∈ secretFiles, f.isDir = true ∨ HasPrefix f.name "." = true →
        Event.ReadFile (w.Join secretsPath f.name) ∉ (readSecrets w secretsPath).trace) := by
  have hsplit : ∀ f : FileInfo, isSecretFile f = true →
      f.isDir = false ∧ HasPrefix f.name "." = false := by
    intro f hf
    simpa [isSecretFile] using hf
  have hres : (readSecrets w secretsPath).result
      = (readSecretsLoop w secretsPath secretFiles []).result := by
    simp [readSecrets, hexists, hlist]
  have htrace : (readSecrets w secretsPath).trace
      = .readSecrets secretsPath :: .Stat secretsPath :: .ReadDir secretsPath ::
        (readSecretsLoop w secretsPath secretFiles []).trace := by
    simp [readSecrets, hexists, hlist]
  have hreads : ∀ filename, Event.ReadFile filename ∈ (readSecrets w secretsPath).trace →
      ∃ f ∈ secretFiles, f.isDir = false ∧ HasPrefix f.name "." = false ∧
        filename = w.Join secretsPath f.name := by
    intro filename hmem
    rw [htrace] at hmem
    simp only [List.mem_cons, reduceCtorEq, false_or] at hmem
    obtain ⟨f, hf, hs, he⟩ := readSecretsLoop_reads w secretsPath _ _ _ hmem
    exact ⟨f, hf, (hsplit f hs).1, (hsplit f hs).2, he⟩
  refine ⟨hreads, ?_, ?_, ?_⟩
  · intro err herr
    rw [hres] at herr
    obtain ⟨_, f, hf, hs, he⟩ := readSecretsLoop_error w secretsPath _ _ _ herr
    exact ⟨f, hf, (hsplit f hs).1, (hsplit f hs).2, he⟩
  · intro m hm k hk
    rw [hres] at hm
    rcases readSecretsLoop_keys w secretsPath _ _ _ hm k hk with h | ⟨f, hf, hs, rfl⟩
    · simp [SecretMap.keys] at h
    · refine ⟨(hsplit f hs).2, ⟨f, hf, rfl, (hsplit f hs).1⟩, ?_⟩
      intro g hg hgdir hgf
      have : g = f := List.inj_on_of_nodup_map hnames hg hf hgf
      rw [this, (hsplit f hs).1] at hgdir
      exact Bool.noConfusion hgdir
  · intro hjoin f hf hskip hmem
    obtain ⟨g, hg, hgdir, hgdot, hpath⟩ := hreads _ hmem
    have : f = g := List.inj_on_of_nodup_map hnames hf hg (hjoin _ _ hpath)
    subst this
    rcases hskip with h | h
    · rw [hgdir] at h; exact Bool.noConfusion h
    · rw [hgdot] at h; exact Bool.noConfusion h

/-- Witness of C1, the end-to-end example: `/etc/secrets` with the files `user`
and `pass` and the hidden directory `.staging` gives the map of `user` and
`pass`. -/
theorem readSecrets_loads_every_secret_file_witness :
    IsNotExist (demoWorld.Stat "/etc/secrets") = false ∧
    demoWorld.ReadDir "/etc/secrets"
      = .ok [⟨".staging", true⟩, ⟨"pass", false⟩, ⟨"user", false⟩] ∧
    (readSecrets demoWorld "/etc/secrets").result
      = (some [("pass", bytes "secret"), ("user", bytes "alice")], none) ∧
    ∃ m : SecretMap, (readSecrets demoWorld "/etc/secrets").result = (some m, none) ∧
      m.length = 2 ∧ m.get "user" = some (bytes "alice") := by
  refine ⟨by decide, by decide, by decide, ?_⟩
  obtain ⟨m, hres, hlen, _, _, hget, _⟩ :=
    readSecrets_loads_every_secret_file demoWorld "/etc/secrets"
      [⟨".staging", true⟩, ⟨"pass", false⟩, ⟨"user", false⟩] demoContent
      (by decide) (by decide) (by decide) (by decide)
  exact ⟨m, hres, hlen, hget ⟨"user", false⟩ (by decide) (by decide)⟩

/-- Witness of C2: in `/etc/broken` the file `key` cannot be read; `cert`, read
before it, is not returned. -/
theorem readSecrets_first_unreadable_aborts_witness :
    (readSecrets demoWorld "/etc/broken").result
      = (none, some (permissionDenied "open" "/etc/broken/key")) ∧
    ∃ earlier bad later err,
      [FileInfo.mk ".hidden" false, ⟨"cert", false⟩, ⟨"key", false⟩, ⟨"token", false⟩]
        = earlier ++ bad :: later ∧
      (∀ f ∈ earlier, isSecretFile f = true →
        ∃ b, demoWorld.ReadFile (demoWorld.Join "/etc/broken" f.name) = .ok b) ∧
      isSecretFile bad = true ∧
      demoWorld.ReadFile (demoWorld.Join "/etc/broken" bad.name) = .error err ∧
      (readSecrets demoWorld "/etc/broken").result = (none, some err) :=
  ⟨by decide,
    readSecrets_first_unreadable_aborts demoWorld "/etc/broken"
      [⟨".hidden", false⟩, ⟨"cert", false⟩, ⟨"key", false⟩, ⟨"token", false⟩]
      (by decide) (by decide)
      ⟨⟨"key", false⟩, by decide, by decide, permissionDenied "open" "/etc/broken/key",
        by decide⟩⟩

/-- Witness of C3: the path `/missing` does not exist. -/
theorem readSecrets_missing_path_witness :
    IsNotExist (demoWorld.Stat "/missing") = true ∧
    ∃ err, demoWorld.Stat "/missing" = some err ∧
      (readSecrets demoWorld "/missing").result = (none, some err) ∧
      (readSecrets demoWorld "/missing").trace = [.readSecrets "/missing", .Stat "/missing"] ∧
      (∀ dirname, Event.ReadDir dirname ∉ (readSecrets demoWorld "/missing").trace) ∧
      (∀ filename, Event.ReadFile filename ∉ (readSecrets demoWorld "/missing").trace) :=
  ⟨by decide, readSecrets_missing_path demoWorld "/missing" (by decide)⟩

/-- Witness of C10: in `/etc/secrets` the directory `.staging` is not read and
is no key of the result. -/
theorem readSecrets_ignores_directories_and_hidden_witness :
    Event.ReadFile "/etc/secrets/.staging" ∉ (readSecrets demoWorld "/etc/secrets").trace ∧
    (∀ m, (readSecrets demoWorld "/etc/secrets").result.1 = some m → ∀ k ∈ m.keys,
      HasPrefix k "." = false ∧
      (∃ f ∈ [FileInfo.mk ".staging" true, ⟨"pass", false⟩, ⟨"user", false⟩],
        f.name = k ∧ f.isDir = false) ∧
      (∀ f ∈ [FileInfo.mk ".staging" true, ⟨"pass", false⟩, ⟨"user", false⟩],
        f.isDir = true → f.name ≠ k)) := by
  have h := readSecrets_ignores_directories_and_hidden demoWorld "/etc/secrets"
    [⟨".staging", true⟩, ⟨"pass", false⟩, ⟨"user", false⟩]
    (by decide) (by decide) (by decide)
  have hjoin : ∀ a b : String,
      demoWorld.Join "/etc/secrets" a = demoWorld.Join "/etc/secrets" b → a = b := by
    intro a b hab
    have hdata := congrArg String.data hab
    simp only [demoWorld, String.data_append, List.append_cancel_left_eq] at hdata
    exact String.ext hdata
  exact ⟨h.2.2.2 hjoin ⟨".staging", true⟩ (by decide) (Or.inl rfl), h.2.2.1⟩

/-! ## The backend factory -/

/-- C4: for a kind that is none of the three constants, whatever the router
URL, the broker URL and the secrets are, `newMessageQueue` calls no
constructor, returns the `nil` backend and returns the error
`errors.Errorf("no supported message queue type found for %q", kind)`, whose
message is that text followed by the kind as `%q` writes it. -/
theorem newMessageQueue_unsupported_kind (w : World) (routerURL : String) (mqCfg : Config)
    (hnats : mqCfg.MQType ≠ w.MessageQueueTypeNats)
    (hasq : mqCfg.MQType ≠ w.MessageQueueTypeASQ)
    (hkafka : mqCfg.MQType ≠ w.MessageQueueTypeKafka) :
    (newMessageQueue w routerURL mqCfg).result
      = (none, some (.errorf "no supported message queue type found for %q" [mqCfg.MQType])) ∧
    (GoError.errorf "no supported message queue type found for %q" [mqCfg.MQType]).Error w.Quote
      = "no supported message queue type found for " ++ w.Quote mqCfg.MQType ∧
    (newMessageQueue w routerURL mqCfg).trace = [.newMessageQueue routerURL mqCfg] ∧
    (∀ pkg r c, Event.New pkg r c ∉ (newMessageQueue w routerURL mqCfg).trace) := by
  refine ⟨?_, ?_, ?_, ?_⟩
  · simp [newMessageQueue, hnats, hasq, hkafka]
  · apply String.ext
    simp [GoError.Error, Sprintf]
  · simp [newMessageQueue, hnats, hasq, hkafka]
  · simp [newMessageQueue, hnats, hasq, hkafka]

/-- Witness of C4, the end-to-end example: the kind `rabbitmq`. -/
theorem newMessageQueue_unsupported_kind_witness :
    (newMessageQueue demoWorld "http://router"
        { MQType := "rabbitmq", Url := "broker:9092", Secrets := none }).result
      = (none, some (.errorf "no supported message queue type found for %q" ["rabbitmq"])) ∧
    (GoError.errorf "no supported message queue type found for %q" ["rabbitmq"]).Error
        demoWorld.Quote
      = "no supported message queue type found for \"rabbitmq\"" ∧
    ∀ pkg r c, Event.New pkg r c ∉ (newMessageQueue demoWorld "http://router"
        { MQType := "rabbitmq", Url := "broker:9092", Secrets := none }).trace :=
  have h := newMessageQueue_unsupported_kind demoWorld "http://router"
    { MQType := "rabbitmq", Url := "broker:9092", Secrets := none }
    (by decide) (by decide) (by decide)
  ⟨h.1, by decide, h.2.2.2⟩

/-- C5: for a kind that is one of the three constants, `newMessageQueue` calls
the constructor of that kind once, with the router URL and the configuration
(broker URL and secrets) that it got, calls no other constructor, and returns
the backend and the error of that call as they are. -/
theorem newMessageQueue_registered_kind (w : World) (routerURL : String) (mqCfg : Config)
    (hdistinct : w.kindsDistinct) :
    (mqCfg.MQType = w.MessageQueueTypeNats →
      (newMessageQueue w routerURL mqCfg).result = w.New .nats routerURL mqCfg ∧
      (newMessageQueue w routerURL mqCfg).trace
        = [.newMessageQueue routerURL mqCfg, .New .nats routerURL mqCfg]) ∧
    (mqCfg.MQType = w.MessageQueueTypeASQ →
      (newMessageQueue w routerURL mqCfg).result = w.New .azurequeuestorage routerURL mqCfg ∧
      (newMessageQueue w routerURL mqCfg).trace
        = [.newMessageQueue routerURL mqCfg, .New .azurequeuestorage routerURL mqCfg]) ∧
    (mqCfg.MQType = w.MessageQueueTypeKafka →
      (newMessageQueue w routerURL mqCfg).result = w.New .kafka routerURL mqCfg ∧
      (newMessageQueue w routerURL mqCfg).trace
        = [.newMessageQueue routerURL mqCfg, .New .kafka routerURL mqCfg]) := by
  obtain ⟨h12, h13, h23⟩ := hdistinct
  refine ⟨?_, ?_, ?_⟩
  · intro h
    simp [newMessageQueue, h]
  · intro h
    simp [newMessageQueue, h, h12.symm]
  · intro h
    simp [newMessageQueue, h, h13.symm, h23.symm]

/-- Witness of C5: the kind of kafka, whose constructor succeeds, and the kind
of nats, whose constructor fails. -/
theorem newMessageQueue_registered_kind_witness :
    demoWorld.kindsDistinct ∧
    (newMessageQueue demoWorld "http://router"
        { MQType := "kafka", Url := "broker:9092", Secrets := some [("user", bytes "alice")] }).result
      = (some ⟨7⟩, none) ∧
    (newMessageQueue demoWorld "http://router"
        { MQType := "kafka", Url := "broker:9092", Secrets := some [("user", bytes "alice")] }).trace
      = [.newMessageQueue "http://router"
          { MQType := "kafka", Url := "broker:9092", Secrets := some [("user", bytes "alice")] },
        .New .kafka "http://router"
          { MQType := "kafka", Url := "broker:9092", Secrets := some [("user", bytes "alice")] }] ∧
    (newMessageQueue demoWorld "http://router"
        { MQType := "nats-streaming", Url := "nats://broker", Secrets := none }).result
      = (none, some (.external false "nats: no servers available for connection")) :=
  have hd : demoWorld.kindsDistinct := ⟨by decide, by decide, by decide⟩
  ⟨hd,
    ((newMessageQueue_registered_kind demoWorld "http://router"
      { MQType := "kafka", Url := "broker:9092", Secrets := some [("user", bytes "alice")] }
      hd).2.2 rfl).1,
    ((newMessageQueue_registered_kind demoWorld "http://router"
      { MQType := "kafka", Url := "broker:9092", Secrets := some [("user", bytes "alice")] }
      hd).2.2 rfl).2,
    ((newMessageQueue_registered_kind demoWorld "http://router"
      { MQType := "nats-streaming", Url := "nats://broker", Secrets := none } hd).1 rfl).1⟩

/-! ## Lemmas on `Start` -/

/-- The five ways through `Start`. -/
theorem Start_cases (w : World) (routerUrl : String) :
    (∃ client err, w.MakeFissionClient = (client, some err) ∧
      Start w routerUrl = ⟨.returned (some (.wrap err "failed to get fission or kubernetes client")),
        [.MakeFissionClient]⟩) ∨
    (∃ client err, w.MakeFissionClient = (client, none) ∧ w.WaitForCRDs client = some err ∧
      Start w routerUrl = ⟨.returned (some (.wrap err "error waiting for CRDs")),
        [.MakeFissionClient, .WaitForCRDs client]⟩) ∨
    (∃ client err, w.MakeFissionClient = (client, none) ∧ w.WaitForCRDs client = none ∧
      (afterSecretsBlock w).result.2 = some err ∧
      Start w routerUrl = ⟨.returned (some err),
        .MakeFissionClient :: .WaitForCRDs client :: (afterSecretsBlock w).trace⟩) ∨
    (∃ client err, w.MakeFissionClient = (client, none) ∧ w.WaitForCRDs client = none ∧
      (afterSecretsBlock w).result.2 = none ∧
      (newMessageQueue w routerUrl (startConfig w (afterSecretsBlock w).result.1)).result.2
        = some err ∧
      Start w routerUrl = ⟨.exited 1,
        .MakeFissionClient :: .WaitForCRDs client :: (afterSecretsBlock w).trace
          ++ (newMessageQueue w routerUrl (startConfig w (afterSecretsBlock w).result.1)).trace
          ++ [.Fatal "failed to connect to remote message queue server" err]⟩) ∨
    (∃ client, w.MakeFissionClient = (client, none) ∧ w.WaitForCRDs client = none ∧
      (afterSecretsBlock w).result.2 = none ∧
      (newMessageQueue w routerUrl (startConfig w (afterSecretsBlock w).result.1)).result.2
        = none ∧
      Start w routerUrl = ⟨if w.RunReturns then .returned none else .blocked,
        .MakeFissionClient :: .WaitForCRDs client :: (afterSecretsBlock w).trace
          ++ (newMessageQueue w routerUrl (startConfig w (afterSecretsBlock w).result.1)).trace
          ++ [.MakeMessageQueueTriggerManager client
                (newMessageQueue w routerUrl (startConfig w (afterSecretsBlock w).result.1)).result.1,
              .Run]⟩) := by
  rcases hc : w.MakeFissionClient with ⟨client, _ | err⟩
  · right
    rcases hw : w.WaitForCRDs client with _ | err
    · right
      rcases hl : (afterSecretsBlock w).result with ⟨secrets, _ | err⟩
      · right
        rcases hm : (newMessageQueue w routerUrl (startConfig w secrets)).result
          with ⟨mq, _ | err⟩
        · right
          refine ⟨client, rfl, hw, rfl, by simp [hm], ?_⟩
          simp only [afterSecretsBlock] at hl
          simp only [startConfig] at hm
          simp [Start, hc, hw, hl, hm, afterSecretsBlock, startConfig]
        · left
          refine ⟨client, err, rfl, hw, rfl, by simp [hm], ?_⟩
          simp only [afterSecretsBlock] at hl
          simp only [startConfig] at hm
          simp [Start, hc, hw, hl, hm, afterSecretsBlock, startConfig]
      · left
        refine ⟨client, err, rfl, hw, rfl, ?_⟩
        simp only [afterSecretsBlock] at hl
        simp [Start, hc, hw, hl, afterSecretsBlock]
    · left
      exact ⟨client, err, rfl, hw, by simp [Start, hc, hw]⟩
  · left
    exact ⟨client, err, rfl, by simp [Start, hc]⟩

/-- The function `strings.TrimSpace` leaves something exactly when some
character of the text is no white space. -/
theorem TrimSpace_length_pos_iff (s : String) :
    (TrimSpace s).length > 0 ↔ s.data.all IsSpace = false := by
  have hlen : (TrimSpace s).length
      = ((s.data.dropWhile IsSpace).rdropWhile IsSpace).length := rfl
  rw [hlen, gt_iff_lt, List.length_pos, Ne, List.rdropWhile_eq_nil_iff]
  constructor
  · intro h
    by_contra hall
    have hall2 : s.data.all IsSpace = true := by simpa using hall
    have hnil : s.data.dropWhile IsSpace = [] :=
      List.dropWhile_eq_nil_iff.mpr (fun x hx => List.all_eq_true.mp hall2 x hx)
    exact h (by simp [hnil])
  · intro hall h
    have hne : s.data.dropWhile IsSpace ≠ [] := by
      intro hnil
      have := List.dropWhile_eq_nil_iff.mp hnil
      have hall2 : s.data.all IsSpace = true := List.all_eq_true.mpr this
      rw [hall2] at hall
      exact Bool.noConfusion hall
    have hhead := List.head_dropWhile_not IsSpace s.data hne
    have := h _ (List.head_mem hne)
    rw [this] at hhead
    exact Bool.noConfusion hhead

/-- The loop of `readSecrets` only writes log lines and reads files. -/
theorem readSecretsLoop_trace (w : World) (secretsPath : String) :
    ∀ (secretFiles : List FileInfo) (secrets : SecretMap),
      ∀ e ∈ (readSecretsLoop w secretsPath secretFiles secrets).trace,
        (∃ msg, e = .Info msg) ∨ (∃ filename, e = .ReadFile filename) := by
  intro secretFiles
  induction secretFiles with
  | nil => intro secrets e h; simp [readSecretsLoop] at h
  | cons f rest ih =>
    intro secrets e h
    unfold readSecretsLoop at h
    by_cases hf : (!f.isDir && !HasPrefix f.name ".") = true
    · simp only [hf, if_true] at h
      split at h
      · simp only [List.mem_cons, List.mem_singleton, List.not_mem_nil, or_false] at h
        rcases h with h | h
        · exact Or.inl ⟨_, h⟩
        · exact Or.inr ⟨_, h⟩
      · simp only [List.mem_cons] at h
        rcases h with h | h | h
        · exact Or.inl ⟨_, h⟩
        · exact Or.inr ⟨_, h⟩
        · exact ih _ e h
    · simp only [hf] at h
      exact ih _ e h

/-- The trace of `readSecrets`: its entry, the call of `os.Stat`, and then
nothing but the listing of the directory, log lines and reads of files. -/
theorem readSecrets_trace (w : World) (secretsPath : String) :
    ∃ rest, (readSecrets w secretsPath).trace
        = .readSecrets secretsPath :: .Stat secretsPath :: rest ∧
      ∀ e ∈ rest, (∃ msg, e = .Info msg) ∨ (∃ filename, e = .ReadFile filename) ∨
        e = .ReadDir secretsPath := by
  unfold readSecrets
  by_cases hs : IsNotExist (w.Stat secretsPath) = true
  · exact ⟨[], by simp [hs], by simp⟩
  · cases hd : w.ReadDir secretsPath with
    | error err => exact ⟨[.ReadDir secretsPath], by simp [hs], by simp⟩
    | ok secretFiles =>
      refine ⟨.ReadDir secretsPath :: (readSecretsLoop w secretsPath secretFiles []).trace,
        by simp [hs], ?_⟩
      intro e he
      rcases List.mem_cons.mp he with h | h
      · exact Or.inr (Or.inr h)
      · rcases readSecretsLoop_trace w secretsPath _ _ e h with h1 | h1
        · exact Or.inl h1
        · exact Or.inr (Or.inl h1)

/-- The entry into `readSecrets` occurs once in the trace of `readSecrets`. -/
theorem readSecrets_trace_entry (w : World) (secretsPath : String) :
    (readSecrets w secretsPath).trace.filter Event.isReadSecrets
      = [.readSecrets secretsPath] := by
  obtain ⟨rest, htrace, hrest⟩ := readSecrets_trace w secretsPath
  have hnil : rest.filter Event.isReadSecrets = [] := by
    rw [List.filter_eq_nil_iff]
    intro e he
    rcases hrest e he with ⟨m, rfl⟩ | ⟨f, rfl⟩ | rfl <;> simp [Event.isReadSecrets]
  rw [htrace]
  simp [List.filter_cons, Event.isReadSecrets, hnil]

/-- The function `readSecrets` does not enter `newMessageQueue`, calls no
constructor and does not touch the trigger manager. -/
theorem readSecrets_trace_others (w : World) (secretsPath : String) :
    ∀ e ∈ (readSecrets w secretsPath).trace,
      e.isNewMessageQueue = false ∧ e.isNew = false ∧ e.isManager = false := by
  obtain ⟨rest, htrace, hrest⟩ := readSecrets_trace w secretsPath
  intro e he
  rw [htrace] at he
  rcases List.mem_cons.mp he with h | h
  · subst h; simp [Event.isNewMessageQueue, Event.isNew, Event.isManager]
  · rcases List.mem_cons.mp h with h | h
    · subst h; simp [Event.isNewMessageQueue, Event.isNew, Event.isManager]
    · rcases hrest e h with ⟨m, rfl⟩ | ⟨f, rfl⟩ | rfl <;>
        simp [Event.isNewMessageQueue, Event.isNew, Event.isManager]

/-- The trace of `newMessageQueue`: its entry, and then at most the call of one
constructor with the arguments of `newMessageQueue`. -/
theorem newMessageQueue_trace (w : World) (routerURL : String) (mqCfg : Config) :
    (newMessageQueue w routerURL mqCfg).trace = [.newMessageQueue routerURL mqCfg] ∨
    ∃ pkg, (newMessageQueue w routerURL mqCfg).trace
      = [.newMessageQueue routerURL mqCfg, .New pkg routerURL mqCfg] := by
  unfold newMessageQueue
  split
  · exact Or.inr ⟨.nats, rfl⟩
  · split
    · exact Or.inr ⟨.azurequeuestorage, rfl⟩
    · split
      · exact Or.inr ⟨.kafka, rfl⟩
      · exact Or.inl rfl

/-- The entry into `newMessageQueue` occurs once in the trace of
`newMessageQueue`. -/
theorem newMessageQueue_trace_entry (w : World) (routerURL : String) (mqCfg : Config) :
    (newMessageQueue w routerURL mqCfg).trace.filter Event.isNewMessageQueue
      = [.newMessageQueue routerURL mqCfg] := by
  rcases newMessageQueue_trace w routerURL mqCfg with h | ⟨pkg, h⟩ <;>
    simp [h, List.filter_cons, Event.isNewMessageQueue]

/-- The function `newMessageQueue` does not enter `readSecrets`, does not touch
the file system and does not touch the trigger manager. -/
theorem newMessageQueue_trace_others (w : World) (routerURL : String) (mqCfg : Config) :
    ∀ e ∈ (newMessageQueue w routerURL mqCfg).trace,
      e.isReadSecrets = false ∧ e.isFileAccess = false ∧ e.isManager = false := by
  intro e he
  rcases newMessageQueue_trace w routerURL mqCfg with h | ⟨pkg, h⟩
  · rw [h] at he
    simp only [List.mem_singleton] at he
    subst he; simp [Event.isReadSecrets, Event.isFileAccess, Event.isManager]
  · rw [h] at he
    simp only [List.mem_cons, List.mem_singleton, List.not_mem_nil, or_false] at he
    rcases he with rfl | rfl <;> simp [Event.isReadSecrets, Event.isFileAccess, Event.isManager]

/-- The block `if len(secretsPath) > 0` of `Start` does not enter
`newMessageQueue`, calls no constructor and does not touch the trigger
manager. -/
theorem afterSecretsBlock_trace_others (w : World) :
    ∀ e ∈ (afterSecretsBlock w).trace,
      e.isNewMessageQueue = false ∧ e.isNew = false ∧ e.isManager = false := by
  unfold afterSecretsBlock
  split
  · exact readSecrets_trace_others w _
  · intro e he; simp at he

/-- The three ways through `Start` once the control plane is ready. -/
theorem Start_cases_ready (w : World) (routerUrl : String) (client : FissionClient)
    (hclient : w.MakeFissionClient = (client, none))
    (hcrds : w.WaitForCRDs client = none) :
    (∃ err, (afterSecretsBlock w).result.2 = some err ∧
      Start w routerUrl = ⟨.returned (some err),
        .MakeFissionClient :: .WaitForCRDs client :: (afterSecretsBlock w).trace⟩) ∨
    (∃ err, (afterSecretsBlock w).result.2 = none ∧
      (newMessageQueue w routerUrl (startConfig w (afterSecretsBlock w).result.1)).result.2
        = some err ∧
      Start w routerUrl = ⟨.exited 1,
        .MakeFissionClient :: .WaitForCRDs client :: (afterSecretsBlock w).trace
          ++ (newMessageQueue w routerUrl (startConfig w (afterSecretsBlock w).result.1)).trace
          ++ [.Fatal "failed to connect to remote message queue server" err]⟩) ∨
    ((afterSecretsBlock w).result.2 = none ∧
      (newMessageQueue w routerUrl (startConfig w (afterSecretsBlock w).result.1)).result.2
        = none ∧
      Start w routerUrl = ⟨if w.RunReturns then .returned none else .blocked,
        .MakeFissionClient :: .WaitForCRDs client :: (afterSecretsBlock w).trace
          ++ (newMessageQueue w routerUrl (startConfig w (afterSecretsBlock w).result.1)).trace
          ++ [.MakeMessageQueueTriggerManager client
                (newMessageQueue w routerUrl (startConfig w (afterSecretsBlock w).result.1)).result.1,
              .Run]⟩) := by
  rcases Start_cases w routerUrl with ⟨c, e, h1, _⟩ | ⟨c, e, h1, h2, _⟩ | ⟨c, e, h1, _, h3, h4⟩ |
    ⟨c, e, h1, _, h3, h4, h5⟩ | ⟨c, h1, _, h3, h4, h5⟩
  · rw [hclient] at h1; simp at h1
  · rw [hclient] at h1
    simp only [Prod.mk.injEq, and_true] at h1
    subst h1
    rw [hcrds] at h2; simp at h2
  · rw [hclient] at h1
    simp only [Prod.mk.injEq, and_true] at h1
    subst h1
    exact Or.inl ⟨e, h3, h4⟩
  · rw [hclient] at h1
    simp only [Prod.mk.injEq, and_true] at h1
    subst h1
    exact Or.inr (Or.inl ⟨e, h3, h4, h5⟩)
  · rw [hclient] at h1
    simp only [Prod.mk.injEq, and_true] at h1
    subst h1
    exact Or.inr (Or.inr ⟨h3, h4, h5⟩)

/-- When the trace of `Start` holds an entry into `newMessageQueue` whose call
returns an error, `Start` took the way of the fatal log entry. -/
theorem Start_fatal_of_call (w : World) (routerUrl r : String) (c : Config) (err : GoError)
    (hcall : Event.newMessageQueue r c ∈ (Start w routerUrl).trace)
    (herr : (newMessageQueue w r c).result.2 = some err) :
    ∃ client, Start w routerUrl = ⟨.exited 1,
      .MakeFissionClient :: .WaitForCRDs client :: (afterSecretsBlock w).trace
        ++ (newMessageQueue w r c).trace
        ++ [.Fatal "failed to connect to remote message queue server" err]⟩ := by
  have hblock : Event.newMessageQueue r c ∉ (afterSecretsBlock w).trace := by
    intro h
    have := (afterSecretsBlock_trace_others w _ h).1
    simp [Event.isNewMessageQueue] at this
  have hmade : ∀ cfg, Event.newMessageQueue r c ∈ (newMessageQueue w routerUrl cfg).trace →
      r = routerUrl ∧ c = cfg := by
    intro cfg h
    rcases newMessageQueue_trace w routerUrl cfg with h1 | ⟨pkg, h1⟩ <;>
      · rw [h1] at h
        simpa using h
  rcases Start_cases w routerUrl with ⟨cl, e, _, h4⟩ | ⟨cl, e, _, _, h4⟩ | ⟨cl, e, _, _, _, h4⟩ |
    ⟨cl, e, _, _, _, h4, h5⟩ | ⟨cl, _, _, _, h4, h5⟩
  · rw [h4] at hcall; simp at hcall
  · rw [h4] at hcall; simp at hcall
  · rw [h4] at hcall
    simp only [List.mem_cons, reduceCtorEq, false_or] at hcall
    exact absurd hcall hblock
  · rw [h5] at hcall
    simp only [List.cons_append, List.mem_cons, reduceCtorEq, false_or, List.mem_append,
      List.mem_singleton, or_false, List.not_mem_nil] at hcall
    rcases hcall with hcall | hcall
    · exact absurd hcall hblock
    · obtain ⟨rfl, rfl⟩ := hmade _ hcall
      rw [herr] at h4
      simp only [Option.some.injEq] at h4
      subst h4
      exact ⟨cl, h5⟩
  · rw [h5] at hcall
    simp only [List.cons_append, List.mem_cons, reduceCtorEq, false_or, List.mem_append,
      List.mem_singleton, or_false, List.not_mem_nil] at hcall
    rcases hcall with hcall | hcall
    · exact absurd hcall hblock
    · obtain ⟨rfl, rfl⟩ := hmade _ hcall
      rw [herr] at h4
      simp at h4

/-! ## The orchestrator -/

/-- C6: in a run of `Start` that reaches the secrets path (the control plane is
ready): when the setting is empty or all white space, `readSecrets` is not
entered and `newMessageQueue` is entered once, with the `nil` map of secrets,
which has no entry; otherwise `readSecrets` is entered exactly once, with the trimmed setting, any
configuration that enters `newMessageQueue` carries the map that `readSecrets`
returned, and when `readSecrets` returns no error `newMessageQueue` is entered
once with that map. -/
theorem Start_secrets_setting (w : World) (routerUrl : String) (client : FissionClient)
    (hclient : w.MakeFissionClient = (client, none))
    (hcrds : w.WaitForCRDs client = none) :
    ((w.Getenv "MESSAGE_QUEUE_SECRETS").data.all IsSpace = true →
      (Start w routerUrl).trace.filter Event.isReadSecrets = [] ∧
      (Start w routerUrl).trace.filter Event.isNewMessageQueue
        = [.newMessageQueue routerUrl
            { MQType := w.Getenv "MESSAGE_QUEUE_TYPE", Url := w.Getenv "MESSAGE_QUEUE_URL",
              Secrets := none }] ∧
      (∀ r c, Event.newMessageQueue r c ∈ (Start w routerUrl).trace →
        c.Secrets = none ∧ c.Secrets.len = 0)) ∧
    ((w.Getenv "MESSAGE_QUEUE_SECRETS").data.all IsSpace = false →
      (Start w routerUrl).trace.filter Event.isReadSecrets
        = [.readSecrets (TrimSpace (w.Getenv "MESSAGE_QUEUE_SECRETS"))] ∧
      (∀ r c, Event.newMessageQueue r c ∈ (Start w routerUrl).trace →
        c.Secrets = (readSecrets w (TrimSpace (w.Getenv "MESSAGE_QUEUE_SECRETS"))).result.1) ∧
      ((readSecrets w (TrimSpace (w.Getenv "MESSAGE_QUEUE_SECRETS"))).result.2 = none →
        (Start w routerUrl).trace.filter Event.isNewMessageQueue
          = [.newMessageQueue routerUrl
              { MQType := w.Getenv "MESSAGE_QUEUE_TYPE", Url := w.Getenv "MESSAGE_QUEUE_URL",
                Secrets :=
                  (readSecrets w (TrimSpace (w.Getenv "MESSAGE_QUEUE_SECRETS"))).result.1 }])) := by
  have hmadeRS : ∀ cfg, (newMessageQueue w routerUrl cfg).trace.filter Event.isReadSecrets = [] := by
    intro cfg
    rw [List.filter_eq_nil_iff]
    intro e he
    simp [(newMessageQueue_trace_others w routerUrl cfg e he).1]
  have hloadNMQ : ∀ path, (readSecrets w path).trace.filter Event.isNewMessageQueue = [] := by
    intro path
    rw [List.filter_eq_nil_iff]
    intro e he
    simp [(readSecrets_trace_others w path e he).1]
  constructor
  · intro hblank
    have hlen : ¬ (TrimSpace (w.Getenv "MESSAGE_QUEUE_SECRETS")).length > 0 := by
      rw [TrimSpace_length_pos_iff, hblank]; simp
    have hblock : afterSecretsBlock w = ⟨(none, none), []⟩ := by
      simp only [afterSecretsBlock, hlen, if_false]
    have hfilter : (Start w routerUrl).trace.filter Event.isReadSecrets = [] ∧
        (Start w routerUrl).trace.filter Event.isNewMessageQueue
          = [.newMessageQueue routerUrl
              { MQType := w.Getenv "MESSAGE_QUEUE_TYPE", Url := w.Getenv "MESSAGE_QUEUE_URL",
                Secrets := none }] := by
      rcases Start_cases_ready w routerUrl client hclient hcrds with ⟨e, h1, _⟩ |
        ⟨e, _, _, h3⟩ | ⟨_, _, h3⟩
      · rw [hblock] at h1; simp at h1
      · rw [h3, hblock]
        simp [List.filter_cons, Event.isReadSecrets, Event.isNewMessageQueue, hmadeRS,
          newMessageQueue_trace_entry, startConfig]
      · rw [h3, hblock]
        simp [List.filter_cons, Event.isReadSecrets, Event.isNewMessageQueue, hmadeRS,
          newMessageQueue_trace_entry, startConfig]
    refine ⟨hfilter.1, hfilter.2, ?_⟩
    intro r c hmem
    have hf : Event.newMessageQueue r c
        ∈ (Start w routerUrl).trace.filter Event.isNewMessageQueue :=
      List.mem_filter.mpr ⟨hmem, rfl⟩
    rw [hfilter.2] at hf
    simp only [List.mem_singleton, Event.newMessageQueue.injEq] at hf
    rw [hf.2]
    exact ⟨rfl, rfl⟩
  · intro hsome
    have hlen : (TrimSpace (w.Getenv "MESSAGE_QUEUE_SECRETS")).length > 0 := by
      rw [TrimSpace_length_pos_iff, hsome]
    have hblock : afterSecretsBlock w
        = readSecrets w (TrimSpace (w.Getenv "MESSAGE_QUEUE_SECRETS")) := by
      simp only [afterSecretsBlock, hlen, if_true]
    have hfilter : (Start w routerUrl).trace.filter Event.isReadSecrets
          = [.readSecrets (TrimSpace (w.Getenv "MESSAGE_QUEUE_SECRETS"))] ∧
        ((Start w routerUrl).trace.filter Event.isNewMessageQueue = [] ∨
          (Start w routerUrl).trace.filter Event.isNewMessageQueue
            = [.newMessageQueue routerUrl
                (startConfig w
                  (readSecrets w (TrimSpace (w.Getenv "MESSAGE_QUEUE_SECRETS"))).result.1)]) ∧
        ((readSecrets w (TrimSpace (w.Getenv "MESSAGE_QUEUE_SECRETS"))).result.2 = none →
          (Start w routerUrl).trace.filter Event.isNewMessageQueue
            = [.newMessageQueue routerUrl
                (startConfig w
                  (readSecrets w (TrimSpace (w.Getenv "MESSAGE_QUEUE_SECRETS"))).result.1)]) := by
      rcases Start_cases_ready w routerUrl client hclient hcrds with ⟨e, h1, h3⟩ | ⟨e, _, _, h3⟩ |
        ⟨_, _, h3⟩
      · rw [hblock] at h1 h3
        rw [h3]
        simp [List.filter_cons, Event.isReadSecrets, Event.isNewMessageQueue,
          readSecrets_trace_entry, hloadNMQ, h1]
      · rw [hblock] at h3
        rw [h3]
        simp [List.filter_cons, Event.isReadSecrets, Event.isNewMessageQueue, hmadeRS,
          newMessageQueue_trace_entry, readSecrets_trace_entry, hloadNMQ]
      · rw [hblock] at h3
        rw [h3]
        simp [List.filter_cons, Event.isReadSecrets, Event.isNewMessageQueue, hmadeRS,
          newMessageQueue_trace_entry, readSecrets_trace_entry, hloadNMQ]
    refine ⟨hfilter.1, ?_, ?_⟩
    · intro r c hmem
      have hf : Event.newMessageQueue r c
          ∈ (Start w routerUrl).trace.filter Event.isNewMessageQueue :=
        List.mem_filter.mpr ⟨hmem, rfl⟩
      rcases hfilter.2.1 with h | h
      · rw [h] at hf; simp at hf
      · rw [h] at hf
        simp only [List.mem_singleton, Event.newMessageQueue.injEq] at hf
        rw [hf.2]; rfl
    · intro hok
      simpa [startConfig] using hfilter.2.2 hok

/-- Witness of C6: with the setting ` /etc/secrets` and a line end after it,
`readSecrets` is entered with `/etc/secrets` and the kafka backend gets the
secrets of that directory; with a setting of blanks, `readSecrets` is not
entered and the backend gets the `nil` map. -/
theorem Start_secrets_setting_witness :
    (Start demoWorld "http://router").trace.filter Event.isReadSecrets
      = [.readSecrets "/etc/secrets"] ∧
    (Start demoWorld "http://router").trace.filter Event.isNewMessageQueue
      = [.newMessageQueue "http://router"
          { MQType := "kafka", Url := "broker:9092",
            Secrets := some [("pass", bytes "secret"), ("user", bytes "alice")] }] ∧
    (Start (demoWorldWith "kafka" " \t\n") "http://router").trace.filter Event.isReadSecrets
      = [] ∧
    (Start (demoWorldWith "kafka" " \t\n") "http://router").trace.filter Event.isNewMessageQueue
      = [.newMessageQueue "http://router"
          { MQType := "kafka", Url := "broker:9092", Secrets := none }] := by
  have h1 := (Start_secrets_setting demoWorld "http://router" ⟨1⟩ rfl rfl).2 (by decide)
  have h2 := (Start_secrets_setting (demoWorldWith "kafka" " \t\n") "http://router" ⟨1⟩
    rfl rfl).1 (by decide)
  exact ⟨h1.1, h1.2.2 (by decide), h2.1, h2.2.1⟩

/-- C8: whenever `newMessageQueue`, entered by `Start`, returns an error, `Start`
writes the fatal log entry with that error as its last act and the process is
over with status 1: `Start` returns nothing to its caller, and the trigger
manager is neither made nor run. -/
theorem Start_factory_error_is_fatal (w : World) (routerUrl r : String) (c : Config)
    (err : GoError)
    (hcall : Event.newMessageQueue r c ∈ (Start w routerUrl).trace)
    (herr : (newMessageQueue w r c).result.2 = some err) :
    (Start w routerUrl).result = .exited 1 ∧
    (Start w routerUrl).trace.getLast?
      = some (.Fatal "failed to connect to remote message queue server" err) ∧
    (∀ e, (Start w routerUrl).result ≠ .returned e) ∧
    (∀ e ∈ (Start w routerUrl).trace, e.isManager = false) := by
  obtain ⟨client, h⟩ := Start_fatal_of_call w routerUrl r c err hcall herr
  rw [h]
  refine ⟨rfl, List.getLast?_concat _, by simp, ?_⟩
  intro e he
  simp only [List.cons_append, List.mem_cons, List.mem_append, List.mem_singleton,
    List.not_mem_nil, or_false] at he
  rcases he with rfl | rfl | (he | he) | rfl
  · rfl
  · rfl
  · exact (afterSecretsBlock_trace_others w e he).2.2
  · exact (newMessageQueue_trace_others w r c e he).2.2
  · rfl

/-- Witness of C8: the constructor of nats fails, and the kind `rabbitmq` is not
supported. -/
theorem Start_factory_error_is_fatal_witness :
    ((Start (demoWorldWith "nats-streaming" "") "http://router").result = .exited 1 ∧
      (Start (demoWorldWith "nats-streaming" "") "http://router").trace.getLast?
        = some (.Fatal "failed to connect to remote message queue server"
            (.external false "nats: no servers available for connection"))) ∧
    ((Start (demoWorldWith "rabbitmq" "") "http://router").result = .exited 1 ∧
      (Start (demoWorldWith "rabbitmq" "") "http://router").trace.getLast?
        = some (.Fatal "failed to connect to remote message queue server"
            (.errorf "no supported message queue type found for %q" ["rabbitmq"]))) :=
  have h1 := Start_factory_error_is_fatal (demoWorldWith "nats-streaming" "") "http://router"
    "http://router" { MQType := "nats-streaming", Url := "broker:9092", Secrets := none }
    (.external false "nats: no servers available for connection") (by decide) (by decide)
  have h2 := Start_factory_error_is_fatal (demoWorldWith "rabbitmq" "") "http://router"
    "http://router" { MQType := "rabbitmq", Url := "broker:9092", Secrets := none }
    (.errorf "no supported message queue type found for %q" ["rabbitmq"])
    (by decide) (by decide)
  ⟨⟨h1.1, h1.2.1⟩, ⟨h2.1, h2.2.1⟩⟩

/-- The error that `Start` returns when `readSecrets` fails is the error of
`readSecrets` itself, and `Start` then does nothing after `readSecrets`. -/
theorem Start_of_loader_error (w : World) (routerUrl : String) (client : FissionClient)
    (err : GoError)
    (hclient : w.MakeFissionClient = (client, none))
    (hcrds : w.WaitForCRDs client = none)
    (hpath : (TrimSpace (w.Getenv "MESSAGE_QUEUE_SECRETS")).length > 0)
    (hload : (readSecrets w (TrimSpace (w.Getenv "MESSAGE_QUEUE_SECRETS"))).result.2 = some err) :
    Start w routerUrl = ⟨.returned (some err),
      .MakeFissionClient :: .WaitForCRDs client ::
        (readSecrets w (TrimSpace (w.Getenv "MESSAGE_QUEUE_SECRETS"))).trace⟩ := by
  have hblock : afterSecretsBlock w
      = readSecrets w (TrimSpace (w.Getenv "MESSAGE_QUEUE_SECRETS")) := by
    simp only [afterSecretsBlock, hpath, if_true]
  rcases Start_cases_ready w routerUrl client hclient hcrds with ⟨e, h1, h3⟩ | ⟨e, h1, _, _⟩ |
    ⟨h1, _, _⟩
  · rw [hblock] at h1 h3
    rw [hload] at h1
    simp only [Option.some.injEq] at h1
    subst h1
    exact h3
  · rw [hblock, hload] at h1; simp at h1
  · rw [hblock, hload] at h1; simp at h1

/-- C9: a failure of `crd.MakeFissionClient`, of `WaitForCRDs` or of
`readSecrets` makes `Start` return an error that is not `nil` and has the cause
of the failure as its cause (the first two wrapped with a message, the third as
it is), and nothing runs after the step that failed: after a failure of the
control plane `readSecrets` is not entered and the file system is not touched,
and in all three cases `newMessageQueue` is not entered, no constructor is
called and the trigger manager is neither made nor run. -/
theorem Start_early_failure_returns (w : World) (routerUrl : String) :
    (∀ client err, w.MakeFissionClient = (client, some err) →
      (Start w routerUrl).result
        = .returned (some (.wrap err "failed to get fission or kubernetes client")) ∧
      (GoError.wrap err "failed to get fission or kubernetes client").Cause = err.Cause ∧
      (Start w routerUrl).trace = [.MakeFissionClient]) ∧
    (∀ client err, w.MakeFissionClient = (client, none) → w.WaitForCRDs client = some err →
      (Start w routerUrl).result = .returned (some (.wrap err "error waiting for CRDs")) ∧
      (GoError.wrap err "error waiting for CRDs").Cause = err.Cause ∧
      (Start w routerUrl).trace = [.MakeFissionClient, .WaitForCRDs client]) ∧
    (∀ client err, w.MakeFissionClient = (client, none) → w.WaitForCRDs client = none →
      (TrimSpace (w.Getenv "MESSAGE_QUEUE_SECRETS")).length > 0 →
      (readSecrets w (TrimSpace (w.Getenv "MESSAGE_QUEUE_SECRETS"))).result.2 = some err →
      (Start w routerUrl).result = .returned (some err) ∧
      (Start w routerUrl).trace = .MakeFissionClient :: .WaitForCRDs client ::
        (readSecrets w (TrimSpace (w.Getenv "MESSAGE_QUEUE_SECRETS"))).trace ∧
      (∀ e ∈ (Start w routerUrl).trace,
        e.isNewMessageQueue = false ∧ e.isNew = false ∧ e.isManager = false)) := by
  refine ⟨?_, ?_, ?_⟩
  · intro client err hclient
    simp [Start, hclient, GoError.Cause]
  · intro client err hclient hcrds
    simp [Start, hclient, hcrds, GoError.Cause]
  · intro client err hclient hcrds hpath hload
    rw [Start_of_loader_error w routerUrl client err hclient hcrds hpath hload]
    refine ⟨rfl, rfl, ?_⟩
    intro e he
    simp only [List.mem_cons] at he
    rcases he with rfl | rfl | he
    · exact ⟨rfl, rfl, rfl⟩
    · exact ⟨rfl, rfl, rfl⟩
    · exact readSecrets_trace_others w _ e he

/-- Witness of C9: no client, a control plane that does not get ready, and a
secrets directory that is not there. -/
theorem Start_early_failure_returns_witness :
    ((Start noClusterWorld "http://router").result
        = .returned (some (.wrap (.external false "unable to load in-cluster configuration")
            "failed to get fission or kubernetes client")) ∧
      (Start noClusterWorld "http://router").trace = [.MakeFissionClient]) ∧
    ((Start noCRDsWorld "http://router").result
        = .returned (some (.wrap (.external false "timeout waiting for CRDs")
            "error waiting for CRDs")) ∧
      (Start noCRDsWorld "http://router").trace = [.MakeFissionClient, .WaitForCRDs ⟨1⟩]) ∧
    ((Start (demoWorldWith "kafka" "/missing") "http://router").result
        = .returned (some (noSuchFile "stat" "/missing")) ∧
      (Start (demoWorldWith "kafka" "/missing") "http://router").trace
        = [.MakeFissionClient, .WaitForCRDs ⟨1⟩, .readSecrets "/missing", .Stat "/missing"]) :=
  have h1 := (Start_early_failure_returns noClusterWorld "http://router").1 ⟨0⟩
    (.external false "unable to load in-cluster configuration") rfl
  have h2 := (Start_early_failure_returns noCRDsWorld "http://router").2.1 ⟨1⟩
    (.external false "timeout waiting for CRDs") rfl rfl
  have h3 := (Start_early_failure_returns (demoWorldWith "kafka" "/missing")
    "http://router").2.2 ⟨1⟩ (noSuchFile "stat" "/missing") rfl rfl (by decide) (by decide)
  ⟨⟨h1.1, h1.2.2⟩, ⟨h2.1, h2.2.2⟩, ⟨h3.1, h3.2.1.trans (by decide)⟩⟩

/-- C7, as the claim states it, fails.  When the secrets directory is not
there, `readSecrets` returns the error of `os.Stat` and `Start` returns that
very error to its caller: it is not the result of `errors.Wrap`, and its message
is the message of `os.Stat` with no context before it.  When the constructor of
nats fails, `newMessageQueue` returns the error of the constructor as it is, and
no error reaches the caller of `Start`: the process is over with status 1. -/
theorem Start_returns_loader_error_without_context :
    ((readSecrets (demoWorldWith "kafka" "/missing") "/missing").result
        = (none, some (.external true "stat /missing: no such file or directory")) ∧
      (Start (demoWorldWith "kafka" "/missing") "http://router").result
        = .returned (some (.external true "stat /missing: no such file or directory")) ∧
      (¬ ∃ cause message, (Start (demoWorldWith "kafka" "/missing") "http://router").result
        = .returned (some (.wrap cause message))) ∧
      (GoError.external true "stat /missing: no such file or directory").Error
          (demoWorldWith "kafka" "/missing").Quote
        = "stat /missing: no such file or directory") ∧
    ((newMessageQueue (demoWorldWith "nats-streaming" "") "http://router"
          { MQType := "nats-streaming", Url := "broker:9092", Secrets := none }).result
        = (none, some (.external false "nats: no servers available for connection")) ∧
      (demoWorldWith "nats-streaming" "").New .nats "http://router"
          { MQType := "nats-streaming", Url := "broker:9092", Secrets := none }
        = (none, some (.external false "nats: no servers available for connection")) ∧
      (Start (demoWorldWith "nats-streaming" "") "http://router").result = .exited 1) := by
  refine ⟨⟨by decide, by decide, ?_, by decide⟩, by decide, by decide, by decide⟩
  rintro ⟨cause, message, h⟩
  have h2 : (Start (demoWorldWith "kafka" "/missing") "http://router").result
      = .returned (some (.external true "stat /missing: no such file or directory")) := by
    decide
  rw [h2] at h
  simp at h

/-- C7, amended: the errors of `readSecrets` and of `newMessageQueue` reach the
caller as they are, with no context around them.  An error of `readSecrets` is
the error of `os.Stat`, of `ioutil.ReadDir` or of `ioutil.ReadFile` itself, and
comes with the `nil` map; `Start` returns the error of `readSecrets` as it is.
An error of `newMessageQueue` is the error of the constructor that it called,
or the new error that names the kind; `Start` does not return it, it ends the
process. -/
theorem loader_and_factory_errors_unwrapped (w : World) (routerUrl : String) :
    (∀ secretsPath err, (readSecrets w secretsPath).result.2 = some err →
      (readSecrets w secretsPath).result.1 = none ∧
      (w.Stat secretsPath = some err ∨ w.ReadDir secretsPath = .error err ∨
        ∃ secretFiles f, w.ReadDir secretsPath = .ok secretFiles ∧ f ∈ secretFiles ∧
          w.ReadFile (w.Join secretsPath f.name) = .error err)) ∧
    (∀ client err, w.MakeFissionClient = (client, none) → w.WaitForCRDs client = none →
      (TrimSpace (w.Getenv "MESSAGE_QUEUE_SECRETS")).length > 0 →
      (readSecrets w (TrimSpace (w.Getenv "MESSAGE_QUEUE_SECRETS"))).result.2 = some err →
      (Start w routerUrl).result = .returned (some err)) ∧
    (∀ r c err, (newMessageQueue w r c).result.2 = some err →
      (∃ pkg, (newMessageQueue w r c).result = w.New pkg r c) ∨
      err = .errorf "no supported message queue type found for %q" [c.MQType]) ∧
    (∀ r c err, Event.newMessageQueue r c ∈ (Start w routerUrl).trace →
      (newMessageQueue w r c).result.2 = some err →
      (Start w routerUrl).result = .exited 1) := by
  refine ⟨?_, ?_, ?_, ?_⟩
  · intro secretsPath err herr
    unfold readSecrets at herr ⊢
    by_cases hs : IsNotExist (w.Stat secretsPath) = true
    · simp only [hs, if_true] at herr ⊢
      exact ⟨trivial, Or.inl herr⟩
    · simp only [hs] at herr ⊢
      cases hd : w.ReadDir secretsPath with
      | error e =>
        simp only [hd, Bool.false_eq_true, if_false, Option.some.injEq] at herr ⊢
        subst herr
        exact ⟨trivial, Or.inr (Or.inl rfl)⟩
      | ok secretFiles =>
        simp only [hd, Bool.false_eq_true, if_false] at herr ⊢
        obtain ⟨h1, f, hf, _, he⟩ := readSecretsLoop_error w secretsPath _ _ _ herr
        exact ⟨h1, Or.inr (Or.inr ⟨secretFiles, f, rfl, hf, he⟩)⟩
  · intro client err hclient hcrds hpath hload
    rw [Start_of_loader_error w routerUrl client err hclient hcrds hpath hload]
  · intro r c err herr
    unfold newMessageQueue at herr ⊢
    split
    · exact Or.inl ⟨.nats, rfl⟩
    · split
      · exact Or.inl ⟨.azurequeuestorage, rfl⟩
      · split
        · exact Or.inl ⟨.kafka, rfl⟩
        · rename_i h1 h2 h3
          simp only [h1, h2, h3, if_false, Option.some.injEq] at herr
          exact Or.inr herr.symm
  · intro r c err hcall herr
    obtain ⟨client, h⟩ := Start_fatal_of_call w routerUrl r c err hcall herr
    rw [h]

/-- Witness of C7, amended: the secrets directory that is not there, and the
constructor of nats that fails. -/
theorem loader_and_factory_errors_unwrapped_witness :
    (Start (demoWorldWith "kafka" "/missing") "http://router").result
      = .returned (some (noSuchFile "stat" "/missing")) ∧
    (demoWorld.Stat "/missing" = some (noSuchFile "stat" "/missing") ∨
      demoWorld.ReadDir "/missing" = .error (noSuchFile "stat" "/missing") ∨
      ∃ secretFiles f, demoWorld.ReadDir "/missing" = .ok secretFiles ∧ f ∈ secretFiles ∧
        demoWorld.ReadFile (demoWorld.Join "/missing" f.name)
          = .error (noSuchFile "stat" "/missing")) ∧
    (Start (demoWorldWith "nats-streaming" "") "http://router").result = .exited 1 :=
  ⟨(loader_and_factory_errors_unwrapped (demoWorldWith "kafka" "/missing")
      "http://router").2.1 ⟨1⟩ (noSuchFile "stat" "/missing") rfl rfl (by decide) (by decide),
    ((loader_and_factory_errors_unwrapped demoWorld "http://router").1 "/missing"
      (noSuchFile "stat" "/missing") (by decide)).2,
    (loader_and_factory_errors_unwrapped (demoWorldWith "nats-streaming" "")
      "http://router").2.2.2 "http://router"
      { MQType := "nats-streaming", Url := "broker:9092", Secrets := none }
      (.external false "nats: no servers available for connection") (by decide) (by decide)⟩

end Mqtrigger
